import Mathlib

/-!
# Verification of the Oxford-dictionary response transformation

Shallow embedding of the response-transformation core of `src/index.js`:
the Response Reducer (`treatResponse` / `treatTopLevelObject` /
`treatLexicalEntry` / `treatEntry` / `treatSense`) and the Text Renderer
(the category/definitions formatting inside `treatResponse`).

Modelling conventions:
* A JavaScript object field that may be absent is an `Option`; an absent
  field reads as `none` (JS `undefined`).
* Accessing a property of `undefined` (e.g. `lexicalCategory.text` when
  `lexicalCategory` is absent, or `results.reduce` when `results` is
  absent) throws a `TypeError`; fallible code therefore lives in
  `Except JsError`.
* `Array.prototype.flat()` flattens nested arrays one level but keeps
  `undefined` elements (it only drops holes of sparse arrays).  Hence the
  element type of an accumulated definitions list is `Option String`:
  `none` models a JS `undefined` element, which string interpolation later
  prints as `"undefined"`.
* The JS accumulator object is an association list
  `List (String × List (Option String))` holding the own properties in
  creation order; `Object.keys` enumeration, which lists array-index-like
  keys first in ascending numeric order before the other keys in creation
  order, is modelled separately by `objectKeys`.
-/

/-- The only runtime error the embedded code can raise: a JS `TypeError`
from accessing a property or method of `undefined`. -/
inductive JsError where
  | typeError
deriving DecidableEq, Repr

/-- Model of `Sense`: `{ definitions: optional array of string }`. -/
structure Sense where
  definitions : Option (List String)
deriving DecidableEq, Repr

/-- Model of `SenseGroup` (an element of a lexical entry's `entries` array):
`{ senses: optional array of Sense }`. -/
structure SenseGroup where
  senses : Option (List Sense)
deriving DecidableEq, Repr

/-- Model of the `lexicalCategory` object, e.g. `{"id": "verb", "text": "Verb"}`. -/
structure LexCategory where
  text : String
deriving DecidableEq, Repr

/-- Model of `LexicalEntry`: `{ lexicalCategory, entries }`; either field may be
absent in a malformed response. -/
structure LexicalEntry where
  lexicalCategory : Option LexCategory
  entries : Option (List SenseGroup)
deriving DecidableEq, Repr

/-- Model of `ResultEntry`: one element of `results`, carrying `lexicalEntries`. -/
structure ResultEntry where
  lexicalEntries : Option (List LexicalEntry)
deriving DecidableEq, Repr

/-- Model of the `metadata` object of the response; `provider` may be absent. -/
structure Metadata where
  provider : Option String
deriving DecidableEq, Repr

/-- Model of `response.data`: `{ metadata, results }`; either may be absent. -/
structure RespData where
  metadata : Option Metadata
  results : Option (List ResultEntry)
deriving DecidableEq, Repr

/-- The accumulator built by the reducer: JS object whose keys (in
insertion order) are part-of-speech labels and whose values are the
accumulated definition arrays. -/
abbrev Collector := List (String × List (Option String))

/-- JS string interpolation of a possibly-`undefined` value:
`undefined` prints as `"undefined"`. -/
def jsToStr : Option String → String
  | none => "undefined"
  | some s => s

/-- Embedding of `treatSense` (src/index.js:164-166):
`(array, sense) => [...array, sense.definitions].flat()`.
If `sense.definitions` is absent, the spread pushes `undefined` and
`flat()` keeps it; if present, `flat()` splices in its strings. -/
def treatSense (array : List (Option String)) (sense : Sense) :
    List (Option String) :=
  match sense.definitions with
  | none => array ++ [none]
  | some defs => array ++ defs.map some

/-- Embedding of `treatEntry` (src/index.js:161-169): default `senses` to `[]` when
absent, then reduce `treatSense` over it starting from `[]`. -/
def treatEntry (entry : SenseGroup) : List (Option String) :=
  (entry.senses.getD []).foldl treatSense []

/-- Embedding of `collector[partOfSpeech] = [...(collector[partOfSpeech] || []), ...definitions]`
on the accumulator's own-property store: an existing key keeps its
property-creation position and gets the new definitions appended; a new
key is created last.  Enumeration order for rendering is a separate JS
rule, modelled by `objectKeys` below.  (A part-of-speech label equal to an
inherited `Object.prototype` member name, such as "toString", would make
the JS `|| []` read yield the inherited member and the spread throw; no
dictionary part-of-speech label collides with those names and that path is
not modelled.) -/
def collectorInsert : Collector → String → List (Option String) → Collector
  | [], k, defs => [(k, defs)]
  | (k', v) :: rest, k, defs =>
    if k' = k then (k', v ++ defs) :: rest
    else (k', v) :: collectorInsert rest k defs

/-- Embedding of `treatLexicalEntry` (src/index.js:135-149): reads
`lexicalCategory.text` (TypeError when `lexicalCategory` is absent), then
`entries.map(treatEntry).flat()` (TypeError when `entries` is absent),
then appends the flattened definitions under the part-of-speech key. -/
def treatLexicalEntry (collector : Collector) (le : LexicalEntry) :
    Except JsError Collector :=
  match le.lexicalCategory with
  | none => .error .typeError
  | some cat =>
    match le.entries with
    | none => .error .typeError
    | some entries =>
      let definitions := (entries.map treatEntry).flatten
      .ok (collectorInsert collector cat.text definitions)

/-- Embedding of `treatTopLevelObject` (src/index.js:121-125):
`lexicalEntries.reduce(treatLexicalEntry, collector)`; TypeError when
`lexicalEntries` is absent. -/
def treatTopLevelObject (collector : Collector) (tlo : ResultEntry) :
    Except JsError Collector :=
  match tlo.lexicalEntries with
  | none => .error .typeError
  | some les => les.foldlM treatLexicalEntry collector

/-- The Response Reducer proper (src/index.js:88):
`results.reduce(treatTopLevelObject, {})`. -/
def reduceResults (rs : List ResultEntry) : Except JsError Collector :=
  rs.foldlM treatTopLevelObject []

/-- One rendered category block (src/index.js:98-105): skipped when the
definitions array is empty, otherwise a `# <category>` header followed by
`<index+1>. <definition>` lines, with the surrounding newlines of the
template `\n# ${category}\n${catDefs.join("\n")}\n`. -/
def renderBlock (category : String) (data : List (Option String)) : String :=
  if data.length ≠ 0 then
    "\n# " ++ category ++ "\n" ++
      String.intercalate "\n"
        (data.enum.map fun p => toString (p.1 + 1) ++ ". " ++ jsToStr p.2) ++
      "\n"
  else ""

/-- The Text Renderer's accumulation loop (src/index.js:96-106):
`definitions += ...` over the categories (the `.sort()` in the source is
commented out).  This version folds the mapping entries in
property-creation order, which coincides with the program's
`Object.keys` enumeration exactly when no key is an array-index-like
string; `renderCollectionJS` below composes the same loop with the actual
enumeration order `objectKeys`. -/
def renderCollection (collection : Collector) : String :=
  collection.foldl (fun definitions p => definitions ++ renderBlock p.1 p.2) ""

/-- The full display string logged at src/index.js:109-112: banner, title
line with expression and provider, the accumulated definitions text, and
the closing banner (consecutive `console.log`s joined by newlines). -/
def renderDisplay (collection : Collector) (expression provider : String) :
    String :=
  "***************************" ++ "\n" ++
    "\nDefinitions of \"" ++ expression ++ "\", as provided by " ++
    provider ++ "\n" ++ renderCollection collection ++ "\n" ++
    "***************************"

/-- The Text Renderer invoked twice on the same already-built mapping. -/
def renderTwice (collection : Collector) (expression provider : String) :
    String × String :=
  (renderDisplay collection expression provider,
   renderDisplay collection expression provider)

/-- Embedding of `treatResponse` (src/index.js:83-113) on `response.data`: destructure
`metadata` and `results`; `results.reduce(...)` (TypeError when `results`
is absent); build the definitions text; then the title line reads
`metadata.provider` (TypeError when `metadata` is absent; an absent
`provider` under a present `metadata` interpolates as `"undefined"`). -/
def treatResponse (d : RespData) (expression : String) :
    Except JsError String :=
  match d.results with
  | none => .error .typeError
  | some rs =>
    match reduceResults rs with
    | .error e => .error e
    | .ok collection =>
      match d.metadata with
      | none => .error .typeError
      | some md =>
        .ok (renderDisplay collection expression (jsToStr md.provider))

/-- Returns `true` exactly when the embedded call returned a display string
rather than throwing. -/
def isOkB : Except JsError String → Bool
  | .ok _ => true
  | .error _ => false

/-- The part-of-speech label carried by a lexical entry (defaulting to
`""` when `lexicalCategory` is absent, a case in which the reducer throws
anyway). -/
def catOfLE (le : LexicalEntry) : String :=
  (le.lexicalCategory.map LexCategory.text).getD ""

/-- The flat sequence of part-of-speech labels in traversal order: each
ResultEntry's lexical entries in order, across the `results` array in
order. -/
def catSeq : List ResultEntry → List String
  | [] => []
  | r :: rs => (r.lexicalEntries.getD []).map catOfLE ++ catSeq rs

/-- Key-order effect of one accumulator update: an existing key keeps its
position, a new key is appended at the end. -/
def insKey (ks : List String) (k : String) : List String :=
  if k ∈ ks then ks else ks ++ [k]

/-- First-seen subsequence of a label sequence, relative to labels already
seen: each label is kept the first time it occurs and dropped on every
later occurrence. -/
def firstSeenAux (seen : List String) : List String → List String
  | [] => []
  | x :: xs =>
    if x ∈ seen then firstSeenAux seen xs
    else x :: firstSeenAux (seen ++ [x]) xs

/-- Spec-side definition of the order the spec mandates for the output
mapping: the part-of-speech labels in the order their first occurrence is
traversed ("first-seen category order"). -/
def firstSeen (cats : List String) : List String :=
  firstSeenAux [] cats

/-- Numeric value of a digit string (callers guarantee all characters are
decimal digits). -/
def strVal (s : String) : Nat :=
  s.data.foldl (fun n c => 10 * n + (c.toNat - 48)) 0

/-- Whether a property key is an ECMAScript array index: a canonical
decimal string (no leading zeros except "0" itself) whose value is below
2^32 - 1.  `Object.keys` enumerates such keys first, in ascending numeric
order, before the other string keys in property-creation order. -/
def isArrayIndex (s : String) : Bool :=
  !s.data.isEmpty && s.data.all Char.isDigit &&
    (s == "0" || s.data.head? != some '0') && strVal s < 4294967295

/-- Insert a digit-string key into a list sorted by ascending numeric
value. -/
def insertAsc (x : String) : List String → List String
  | [] => [x]
  | y :: ys => if strVal x ≤ strVal y then x :: y :: ys else y :: insertAsc x ys

/-- Sort digit-string keys by ascending numeric value. -/
def sortByVal (l : List String) : List String :=
  l.foldr insertAsc []

/-- The `Object.keys` enumeration order (src/index.js:95) of an object
whose own keys were created in the given order: array-index-like keys
first in ascending numeric order, then the remaining keys in creation
order. -/
def objectKeys (ks : List String) : List String :=
  sortByVal (ks.filter isArrayIndex) ++ ks.filter (fun k => !isArrayIndex k)

/-- Embedding of `collection[category]` for a `category` drawn from the
collection's keys (the default is never hit there). -/
def lookupD (c : Collector) (k : String) : List (Option String) :=
  match c.find? (fun p => p.1 == k) with
  | some p => p.2
  | none => []

/-- The Text Renderer's accumulation loop composed with the program's
actual key enumeration: `Object.keys(collection)` order, then
`definitions += ...` per category (src/index.js:95-106). -/
def renderCollectionJS (collection : Collector) : String :=
  (objectKeys (collection.map Prod.fst)).foldl
    (fun definitions k => definitions ++ renderBlock k (lookupD collection k)) ""

/-!
## Helper lemmas
-/

/-- The embedded code raises only `TypeError`. -/
lemma jsError_eq (e : JsError) : e = .typeError := by
  cases e
  rfl

lemma err_bind {α β : Type} (e : JsError) (f : α → Except JsError β) :
    (Except.error e >>= f) = Except.error e := rfl

lemma ok_bind {α β : Type} (a : α) (f : α → Except JsError β) :
    (Except.ok a >>= f) = f a := rfl

/-- If some element of the list makes the step function throw whatever the
accumulator is, the whole reduce throws. -/
lemma foldlM_mem_error {α β : Type} {f : β → α → Except JsError β} {a : α}
    {l : List α} (ha : a ∈ l)
    (herr : ∀ b, f b a = .error .typeError) :
    ∀ b, l.foldlM f b = .error .typeError := by
  induction l with
  | nil => cases ha
  | cons x xs ih =>
    intro b
    rw [List.foldlM_cons]
    rcases List.mem_cons.mp ha with h | h
    · subst h
      rw [herr b, err_bind]
    · cases hfx : f b x with
      | error e =>
        rw [err_bind, jsError_eq e]
      | ok b' =>
        rw [ok_bind]
        exact ih h b'

/-- Successful `treatLexicalEntry` calls are exactly those on entries with
both fields present, and they perform one accumulator update. -/
lemma treatLexicalEntry_ok {c : Collector} {le : LexicalEntry}
    {c' : Collector} (h : treatLexicalEntry c le = .ok c') :
    ∃ cat es, le.lexicalCategory = some cat ∧ le.entries = some es ∧
      c' = collectorInsert c cat.text ((es.map treatEntry).flatten) := by
  unfold treatLexicalEntry at h
  cases hlc : le.lexicalCategory with
  | none => rw [hlc] at h; cases h
  | some cat =>
    rw [hlc] at h
    cases hes : le.entries with
    | none => rw [hes] at h; cases h
    | some es =>
      rw [hes] at h
      exact ⟨cat, es, rfl, rfl, (Except.ok.inj h).symm⟩

/-- One accumulator update affects the key list by `insKey`. -/
lemma keys_collectorInsert (c : Collector) (k : String)
    (defs : List (Option String)) :
    (collectorInsert c k defs).map Prod.fst = insKey (c.map Prod.fst) k := by
  induction c with
  | nil => simp [collectorInsert, insKey]
  | cons p rest ih =>
    obtain ⟨k', v⟩ := p
    by_cases hk : k' = k
    · subst hk
      simp [collectorInsert, insKey]
    · simp only [collectorInsert, if_neg hk, List.map_cons, ih, insKey]
      by_cases hmem : k ∈ rest.map Prod.fst
      · simp [hmem, Ne.symm hk]
      · simp [hmem, Ne.symm hk]

/-- Key order across a reduce over one `lexicalEntries` array. -/
lemma lexFold_keys :
    ∀ (les : List LexicalEntry) (c c' : Collector),
      les.foldlM treatLexicalEntry c = .ok c' →
      c'.map Prod.fst = (les.map catOfLE).foldl insKey (c.map Prod.fst) := by
  intro les
  induction les with
  | nil =>
    intro c c' h
    cases h
    rfl
  | cons le rest ih =>
    intro c c' h
    rw [List.foldlM_cons] at h
    cases hfx : treatLexicalEntry c le with
    | error e => rw [hfx, err_bind] at h; cases h
    | ok c₁ =>
      rw [hfx, ok_bind] at h
      obtain ⟨cat, es, hcat, hes, hc₁⟩ := treatLexicalEntry_ok hfx
      have hkeys : c₁.map Prod.fst = insKey (c.map Prod.fst) cat.text := by
        rw [hc₁, keys_collectorInsert]
      have hcatof : catOfLE le = cat.text := by
        simp [catOfLE, hcat]
      rw [List.map_cons, List.foldl_cons, hcatof, ← hkeys]
      exact ih c₁ c' h

/-- Key order across the full reduce over `results`. -/
lemma topFold_keys :
    ∀ (rs : List ResultEntry) (c c' : Collector),
      rs.foldlM treatTopLevelObject c = .ok c' →
      c'.map Prod.fst = (catSeq rs).foldl insKey (c.map Prod.fst) := by
  intro rs
  induction rs with
  | nil =>
    intro c c' h
    cases h
    rfl
  | cons r rest ih =>
    intro c c' h
    rw [List.foldlM_cons] at h
    cases hles : r.lexicalEntries with
    | none =>
      rw [show treatTopLevelObject c r = .error .typeError by
            simp [treatTopLevelObject, hles], err_bind] at h
      cases h
    | some les =>
      rw [show treatTopLevelObject c r = les.foldlM treatLexicalEntry c by
            simp [treatTopLevelObject, hles]] at h
      cases hfold : les.foldlM treatLexicalEntry c with
      | error e => rw [hfold, err_bind] at h; cases h
      | ok c₁ =>
        rw [hfold, ok_bind] at h
        have h₁ := lexFold_keys les c c₁ hfold
        have h₂ := ih c₁ c' h
        rw [h₂, h₁, catSeq, hles, Option.getD_some, List.foldl_append]

/-- Folding `insKey` realizes the first-seen order relative to the keys
already present. -/
lemma foldl_insKey_eq :
    ∀ (cats : List String) (ks : List String),
      cats.foldl insKey ks = ks ++ firstSeenAux ks cats := by
  intro cats
  induction cats with
  | nil => intro ks; simp [firstSeenAux]
  | cons x xs ih =>
    intro ks
    rw [List.foldl_cons]
    by_cases hx : x ∈ ks
    · rw [show insKey ks x = ks from if_pos hx, ih,
        show firstSeenAux ks (x :: xs) = firstSeenAux ks xs by
          simp [firstSeenAux, hx]]
    · rw [show insKey ks x = ks ++ [x] from if_neg hx, ih,
        show firstSeenAux ks (x :: xs) = x :: firstSeenAux (ks ++ [x]) xs by
          simp [firstSeenAux, hx]]
      simp

/-- Folding string concatenation from any accumulator splits off the
accumulator. -/
lemma foldl_str_acc {α : Type} (f : α → String) :
    ∀ (l : List α) (acc : String),
      l.foldl (fun d p => d ++ f p) acc =
        acc ++ l.foldl (fun d p => d ++ f p) "" := by
  intro l
  induction l with
  | nil => intro acc; simp [String.append_empty]
  | cons x xs ih =>
    intro acc
    rw [List.foldl_cons, List.foldl_cons, ih (acc ++ f x), ih ("" ++ f x),
      String.empty_append, String.append_assoc]

/-- The renderer's accumulation loop emits the blocks of the mapping in
order, concatenated. -/
lemma renderCollection_eq_join (col : Collector) :
    renderCollection col =
      String.join (col.map fun p => renderBlock p.1 p.2) := by
  induction col with
  | nil => rfl
  | cons p rest ih =>
    have hjoin :
        String.join ((p :: rest).map fun q => renderBlock q.1 q.2) =
          renderBlock p.1 p.2 ++
            String.join (rest.map fun q => renderBlock q.1 q.2) := by
      apply String.ext
      simp [String.data_append]
    rw [hjoin, ← ih, renderCollection, renderCollection, List.foldl_cons,
      foldl_str_acc (fun p : String × List (Option String) =>
        renderBlock p.1 p.2), String.empty_append]

/-- A category with an empty accumulated list renders as the empty
string. -/
lemma renderBlock_nil (k : String) : renderBlock k [] = "" := by
  simp [renderBlock]

/-- When no key is array-index-like, `Object.keys` enumeration is exactly
property-creation order. -/
lemma objectKeys_no_index (ks : List String)
    (h : ∀ k ∈ ks, isArrayIndex k = false) : objectKeys ks = ks := by
  have h₁ : ks.filter isArrayIndex = [] := by
    rw [List.filter_eq_nil_iff]
    intro k hk
    simp [h k hk]
  have h₂ : ks.filter (fun k => !isArrayIndex k) = ks := by
    rw [List.filter_eq_self]
    intro k hk
    simp [h k hk]
  rw [objectKeys, h₁, h₂]
  rfl

/-- Folding string concatenation over any list emits the pieces in list
order, concatenated. -/
lemma foldl_join {α : Type} (f : α → String) :
    ∀ l : List α,
      l.foldl (fun d x => d ++ f x) "" = String.join (l.map f) := by
  intro l
  induction l with
  | nil => rfl
  | cons x xs ih =>
    have hjoin : String.join ((x :: xs).map f) =
        f x ++ String.join (xs.map f) := by
      apply String.ext
      simp [String.data_append]
    rw [hjoin, ← ih, List.foldl_cons, foldl_str_acc f, String.empty_append]

/-!
## Claim theorems
-/

/-- C1 (counterexample): the claim "a Sense lacking `definitions`
contributes zero entries" is false in the code: the single Sense `{}`
contributes a non-empty list (one `undefined` element), because
`[...array, sense.definitions].flat()` keeps the `undefined` pushed by the
spread. -/
theorem c1_absent_definitions_counterexample :
    treatEntry ⟨some [⟨none⟩]⟩ ≠ [] := by
  decide

/-- C1 (amended): a Sense lacking `definitions` contributes exactly one
`undefined` entry to the accumulated list — not zero — and raises no
error; only an absent `senses` array is defaulted to empty. -/
theorem c1_absent_definitions_amended
    (array : List (Option String)) (s : Sense)
    (h : s.definitions = none) :
    treatSense array s = array ++ [none] := by
  simp [treatSense, h]

/-- C1 witness: the amended statement at the concrete Sense `{}`. -/
theorem c1_absent_definitions_amended_witness :
    (Sense.mk none).definitions = none ∧
      treatSense [] ⟨none⟩ = [] ++ [none] :=
  ⟨rfl, c1_absent_definitions_amended [] ⟨none⟩ rfl⟩

/-- C2: a malformed top-level shape makes the render entry point throw
rather than return a display string: when `results` is absent (in
particular for the input `{}`), and when any ResultEntry lacks
`lexicalEntries`. -/
theorem c2_malformed_top_level_throws :
    (∀ (md : Option Metadata) (e : String),
      treatResponse ⟨md, none⟩ e = .error .typeError) ∧
    (∀ (md : Option Metadata) (rs : List ResultEntry) (e : String),
      (∃ r ∈ rs, r.lexicalEntries = none) →
      treatResponse ⟨md, some rs⟩ e = .error .typeError) := by
  constructor
  · intro md e
    rfl
  · intro md rs e ⟨r, hr, hnone⟩
    have hred : reduceResults rs = .error .typeError :=
      foldlM_mem_error hr
        (fun b => by simp [treatTopLevelObject, hnone]) []
    simp [treatResponse, hred]

/-- C2 witness: the concrete input `{results: [{}]}` throws. -/
theorem c2_malformed_top_level_throws_witness :
    treatResponse ⟨none, some [⟨none⟩]⟩ "w" = .error .typeError :=
  c2_malformed_top_level_throws.2 none [⟨none⟩] "w"
    ⟨⟨none⟩, by simp, rfl⟩

/-- C3 (counterexample): the claim fails for array-index-like labels. With
label "1" (definitions ["x"]) traversed before label "0" (definitions
["y"]), the reduce succeeds and stores the keys in creation order
["1", "0"], but `Object.keys` enumerates ["0", "1"] — ascending numeric
order — so the program renders `# 0` before `# 1`, not first-seen order. -/
theorem c3_enumeration_counterexample :
    reduceResults
        [⟨some [⟨some ⟨"1"⟩, some [⟨some [⟨some ["x"]⟩]⟩]⟩,
                ⟨some ⟨"0"⟩, some [⟨some [⟨some ["y"]⟩]⟩]⟩]⟩] =
      .ok [("1", [some "x"]), ("0", [some "y"])] ∧
    objectKeys (([("1", [some "x"]), ("0", [some "y"])] : Collector).map
        Prod.fst) = ["0", "1"] ∧
    renderCollectionJS [("1", [some "x"]), ("0", [some "y"])] =
      "\n# 0\n1. y\n\n# 1\n1. x\n" ∧
    firstSeen (catSeq
        [⟨some [⟨some ⟨"1"⟩, some [⟨some [⟨some ["x"]⟩]⟩]⟩,
                ⟨some ⟨"0"⟩, some [⟨some [⟨some ["y"]⟩]⟩]⟩]⟩]) =
      ["1", "0"] ∧
    (["0", "1"] : List String) ≠ ["1", "0"] :=
  ⟨rfl, rfl, rfl, rfl, by decide⟩

/-- C3 (amended): the collector stores keys in first-seen order, but the
program enumerates them with `Object.keys`: array-index-like labels come
first in ascending numeric order, then the remaining labels in first-seen
order.  Hence for every well-formed ApiResponse none of whose
part-of-speech labels is array-index-like — every real part-of-speech
label — the enumerated key order equals the first-seen order of the
traversal, and the renderer iterates that enumeration order with no
alphabetic sort (blocks concatenated in enumeration order). -/
theorem c3_first_seen_amended :
    (∀ (rs : List ResultEntry) (c : Collector),
      reduceResults rs = .ok c →
      (∀ k ∈ c.map Prod.fst, isArrayIndex k = false) →
      objectKeys (c.map Prod.fst) = firstSeen (catSeq rs)) ∧
    (∀ col : Collector,
      renderCollectionJS col =
        String.join ((objectKeys (col.map Prod.fst)).map
          fun k => renderBlock k (lookupD col k))) := by
  constructor
  · intro rs c h hnoidx
    rw [objectKeys_no_index _ hnoidx]
    have hk := topFold_keys rs [] c h
    rw [hk, foldl_insKey_eq]
    rfl
  · intro col
    exact foldl_join _ _

/-- C3 witness: a traversal meeting "Verb", then "Adjective", then "Verb"
again (no array-index-like labels) enumerates keys
`["Verb", "Adjective"]` — first-seen order, not alphabetic. -/
theorem c3_first_seen_amended_witness :
    objectKeys (([("Verb", []), ("Adjective", [])] : Collector).map
        Prod.fst) =
      firstSeen (catSeq
        [⟨some [⟨some ⟨"Verb"⟩, some []⟩, ⟨some ⟨"Adjective"⟩, some []⟩]⟩,
         ⟨some [⟨some ⟨"Verb"⟩, some []⟩]⟩]) :=
  c3_first_seen_amended.1
    [⟨some [⟨some ⟨"Verb"⟩, some []⟩, ⟨some ⟨"Adjective"⟩, some []⟩]⟩,
     ⟨some [⟨some ⟨"Verb"⟩, some []⟩]⟩]
    ([("Verb", []), ("Adjective", [])] : Collector) rfl (by decide)

/-- C4: repeated part-of-speech labels merge under one key by
concatenation in encounter order (two consecutive updates of the same key
equal one update with the concatenated lists, no deduplication), and
Scenario C concretely: "Noun" with ["a"] then "Noun" with ["b"] in two
ResultEntries yields the mapping entry ("Noun", ["a", "b"]) rendered as
`1. a` then `2. b`. -/
theorem c4_same_label_concatenation :
    (∀ (c : Collector) (k : String) (d₁ d₂ : List (Option String)),
      collectorInsert (collectorInsert c k d₁) k d₂ =
        collectorInsert c k (d₁ ++ d₂)) ∧
    (reduceResults
        [⟨some [⟨some ⟨"Noun"⟩, some [⟨some [⟨some ["a"]⟩]⟩]⟩]⟩,
         ⟨some [⟨some ⟨"Noun"⟩, some [⟨some [⟨some ["b"]⟩]⟩]⟩]⟩] =
      .ok [("Noun", [some "a", some "b"])] ∧
    renderCollection [("Noun", [some "a", some "b"])] =
      "\n# Noun\n1. a\n2. b\n") := by
  refine ⟨?_, rfl, rfl⟩
  intro c k d₁ d₂
  induction c with
  | nil => simp [collectorInsert]
  | cons p rest ih =>
    obtain ⟨k', v⟩ := p
    by_cases hk : k' = k
    · subst hk
      simp [collectorInsert, List.append_assoc]
    · simp [collectorInsert, hk, ih]

/-- C5: a category whose accumulated definitions list is empty produces no
output at all — the rendered string of any mapping equals the rendered
string of the mapping with all empty-list categories removed. -/
theorem c5_empty_category_renders_nothing (col : Collector) :
    renderCollection col =
      renderCollection (col.filter fun p => !p.2.isEmpty) := by
  induction col with
  | nil => rfl
  | cons p rest ih =>
    have hcons : ∀ (q : String × List (Option String)) (l : Collector),
        renderCollection (q :: l) =
          renderBlock q.1 q.2 ++ renderCollection l := by
      intro q l
      rw [renderCollection, List.foldl_cons,
        foldl_str_acc (fun p : String × List (Option String) =>
          renderBlock p.1 p.2), String.empty_append]
      rfl
    cases hd : p.2 with
    | nil =>
      rw [hcons, hd, renderBlock_nil, String.empty_append,
        List.filter_cons]
      simp [hd, ih]
    | cons x xs =>
      rw [hcons, List.filter_cons]
      have : (!p.2.isEmpty) = true := by simp [hd]
      rw [if_pos this, hcons, ih]

/-- C6: a SenseGroup lacking `senses` is defaulted to the empty sequence
and contributes zero definitions without error; and Scenario B concretely:
a LexicalEntry with `entries: [{}]` as the only contributor leaves its
category's list empty, which renders no block. -/
theorem c6_absent_senses_contributes_nothing :
    (∀ sg : SenseGroup, sg.senses = none → treatEntry sg = []) ∧
    (reduceResults [⟨some [⟨some ⟨"Noun"⟩, some [⟨none⟩]⟩]⟩] =
        .ok [("Noun", [])] ∧
      renderCollection [("Noun", [])] = "") := by
  refine ⟨?_, rfl, rfl⟩
  intro sg h
  simp [treatEntry, h]

/-- C6 witness: the first conjunct at the concrete SenseGroup `{}`. -/
theorem c6_absent_senses_contributes_nothing_witness :
    treatEntry ⟨none⟩ = [] :=
  c6_absent_senses_contributes_nothing.1 ⟨none⟩ rfl

/-- C7: the Text Renderer is a pure function of the mapping, the
expression and the provider name: invoking it twice on the same
already-built mapping yields two identical strings — there is no hidden
counter or other state between the calls. -/
theorem c7_renderer_pure (col : Collector) (expression provider : String) :
    (renderTwice col expression provider).1 =
      (renderTwice col expression provider).2 :=
  rfl

/-- C8 (Scenario A): the input
`results = [{lexicalEntries: [{lexicalCategory: {text: "Verb"}, entries: [{senses: [{definitions: ["fix code"]}]}]}]}]`
reduces to the mapping `{"Verb": ["fix code"]}`, rendered as the block
`# Verb` followed by `1. fix code`, numbered from 1 in list order. -/
theorem c8_scenario_a :
    reduceResults
        [⟨some [⟨some ⟨"Verb"⟩, some [⟨some [⟨some ["fix code"]⟩]⟩]⟩]⟩] =
      .ok [("Verb", [some "fix code"])] ∧
    renderCollection [("Verb", [some "fix code"])] =
      "\n# Verb\n1. fix code\n" :=
  ⟨rfl, rfl⟩

/-- C9 (counterexample): the claim fails for a response whose `metadata`
is present but lacks `provider`: with well-formed `results`, the render
completes and returns a display string (the provider interpolates as
"undefined") instead of throwing. -/
theorem c9_metadata_counterexample :
    treatResponse
        ⟨some ⟨none⟩,
         some [⟨some [⟨some ⟨"Verb"⟩, some [⟨some [⟨some ["fix code"]⟩]⟩]⟩]⟩]⟩
        "debug" =
      .ok ("***************************\n\nDefinitions of \"debug\", as provided by undefined\n\n# Verb\n1. fix code\n\n***************************") :=
  rfl

/-- C9 (amended): only an absent `metadata` key makes the render entry
point throw before producing a display string; when `metadata` is present
but lacks `provider`, the render succeeds and prints the provider as
"undefined". -/
theorem c9_absent_metadata_throws (d : RespData) (e : String)
    (h : d.metadata = none) :
    treatResponse d e = .error .typeError := by
  cases hres : d.results with
  | none => simp [treatResponse, hres]
  | some rs =>
    cases hred : reduceResults rs with
    | error e' =>
      rw [jsError_eq e'] at hred
      simp [treatResponse, hres, hred]
    | ok collection =>
      simp [treatResponse, hres, hred, h]

/-- C9 witness: the amended statement at a concrete response lacking
`metadata`. -/
theorem c9_absent_metadata_throws_witness :
    (RespData.mk none (some [])).metadata = none ∧
      treatResponse ⟨none, some []⟩ "w" = .error .typeError :=
  ⟨rfl, c9_absent_metadata_throws ⟨none, some []⟩ "w" rfl⟩

/-- C10: a LexicalEntry lacking `lexicalCategory` or lacking `entries`
makes the Response Reducer throw, whatever the accumulator — the entry is
neither skipped nor defaulted; defaulting applies only to `senses`. -/
theorem c10_missing_lexical_fields_throw (c : Collector)
    (le : LexicalEntry)
    (h : le.lexicalCategory = none ∨ le.entries = none) :
    treatLexicalEntry c le = .error .typeError := by
  rcases h with h | h
  · simp [treatLexicalEntry, h]
  · cases hlc : le.lexicalCategory with
    | none => simp [treatLexicalEntry, hlc]
    | some cat => simp [treatLexicalEntry, hlc, h]

/-- C10 witness: the concrete LexicalEntry `{}` throws on the empty
accumulator. -/
theorem c10_missing_lexical_fields_throw_witness :
    treatLexicalEntry [] ⟨none, none⟩ = .error .typeError :=
  c10_missing_lexical_fields_throw [] ⟨none, none⟩ (Or.inl rfl)
